/-
  Verification of the rust-bwa wrapper (src/src/lib.rs) against its
  natural-language specification.

  Shallow embedding: byte buffers are lists of naturals, the native
  aligner and the htslib record decoder are explicit function
  parameters, `Option` models Rust panics (`unwrap`), and an event
  trace records the FFI side effects (native call, output-buffer
  reads, output-buffer frees) of `align_read_pair`.
-/
import Mathlib

namespace RustBwa

/-- A byte, modelled as a natural number (values 0..255 in practice). -/
abbrev Byte := Nat

/-- A byte buffer (`&[u8]` / `Vec<u8>`). -/
abbrev Buf := List Byte

/-! ## BwaSettings (lib.rs lines 41-94) -/

/-- Embedding of the fields of `bwa_sys::mem_opt_t` that the wrapper
touches: match score `a`, mismatch penalty `b`, deletion/insertion
gap-open `o_del`/`o_ins`, deletion/insertion gap-extend
`e_del`/`e_ins`, clip penalties, unpaired penalty, the behaviour
flag bitfield and the derived scoring matrix `mat`. -/
structure mem_opt_t where
  a : Int
  b : Int
  o_del : Int
  o_ins : Int
  e_del : Int
  e_ins : Int
  pen_clip5 : Int
  pen_clip3 : Int
  pen_unpaired : Int
  flag : Nat
  mat : List Int
  deriving Repr, DecidableEq

/-- Embedding of `BwaSettings` (lib.rs line 42): a wrapper holding one
`mem_opt_t`. -/
structure BwaSettings where
  bwa_settings : mem_opt_t
  deriving Repr, DecidableEq

/-- Embedding of `BwaSettings::set_scores` (lib.rs lines 56-74).
The native scoring-matrix builder `bwa_sys::bwa_fill_scmat` is an
external C routine, so it is passed in as an explicit function
parameter `fill_scmat`; the wrapper calls it on the new
match/mismatch values and stores the result in `mat`.  The six
integer fields are assigned exactly as in the source: `a := matchp`,
`b := mismatch`, `o_del := gap_open`, `o_ins := gap_open`,
`e_del := gap_extend`, `e_ins := gap_extend`. -/
def BwaSettings.set_scores (fill_scmat : Int → Int → List Int)
    (s : BwaSettings) (matchp mismatch gap_open gap_extend : Int) :
    BwaSettings :=
  { bwa_settings :=
    { s.bwa_settings with
      a := matchp
      b := mismatch
      o_del := gap_open
      o_ins := gap_open
      e_del := gap_extend
      e_ins := gap_extend
      mat := fill_scmat matchp mismatch } }

/-- Embedding of `BwaSettings::set_clip_scores` (lib.rs lines 77-81). -/
def BwaSettings.set_clip_scores (s : BwaSettings) (clip5 clip3 : Int) :
    BwaSettings :=
  { bwa_settings := { s.bwa_settings with pen_clip5 := clip5, pen_clip3 := clip3 } }

/-- Embedding of `BwaSettings.set_unpaired` (lib.rs lines 84-87). -/
def BwaSettings.set_unpaired (s : BwaSettings) (unpaired : Int) : BwaSettings :=
  { bwa_settings := { s.bwa_settings with pen_unpaired := unpaired } }

/-! ## PairedEndStats (lib.rs lines 173-209) -/

/-- Embedding of `bwa_sys::mem_pestat_t`.  The C struct stores
`failed : c_int`, bounds `low`/`high : c_int` and the mean (`avg`)
and standard deviation (`std`) as doubles; the wrapper only ever
stores constants into the two floating fields and never computes
with them, so they are embedded as rationals. -/
structure mem_pestat_t where
  failed : Int
  low : Int
  high : Int
  avg : ℚ
  std : ℚ
  deriving Repr, DecidableEq

/-- Embedding of `PairedEndStats` (lib.rs lines 174-176): the
four-slot orientation table handed to the native aligner. -/
structure PairedEndStats where
  inner : List mem_pestat_t
  deriving Repr, DecidableEq

/-- The `pe_stat_null()` closure of `PairedEndStats::simple`
(lib.rs lines 182-188): the fixed "failed" sentinel slot. -/
def pe_stat_null : mem_pestat_t :=
  { failed := 1, low := 0, high := 0, avg := 0, std := 100 }

/-- Embedding of `PairedEndStats::simple` (lib.rs lines 181-204):
slot 1 (the forward-reverse orientation class) gets the supplied
values with `failed := 0`; slots 0, 2, 3 are the sentinel. -/
def PairedEndStats.simple (avg std : ℚ) (low high : Int) : PairedEndStats :=
  { inner :=
      [ pe_stat_null
      , { failed := 0, low := low, high := high, avg := avg, std := std }
      , pe_stat_null
      , pe_stat_null ] }

/-- Embedding of `PairedEndStats::default` (lib.rs lines 206-208). -/
def PairedEndStats.default : PairedEndStats :=
  PairedEndStats.simple 200 100 35 600

/-! ## BwaReference (lib.rs lines 96-171) -/

/-- Embedding of `ReferenceError` (lib.rs lines 96-98): a typed error
wrapping a message string. -/
structure ReferenceError where
  msg : String
  deriving Repr, DecidableEq

/-- Embedding of the part of the opaque native `bwa_sys::bwaidx_t`
handle that `BwaReference::open` reads: the contig table
(`bns.anns`), i.e. an ordered list of (name, length) pairs.  Contig
names are C strings the wrapper converts to `String`; they are
embedded as already-decoded strings. -/
structure bwaidx_t where
  contigs : List (String × Nat)
  deriving Repr, DecidableEq

/-- Embedding of `BwaReference` (lib.rs lines 102-106): the native
handle plus the materialised contig name and length sequences. -/
structure BwaReference where
  bwt_data : bwaidx_t
  contig_names : List String
  contig_lengths : List Nat
  deriving Repr, DecidableEq

/-- Model of `format!("couldn't load reference: {:?}", path)`
(lib.rs lines 117-120): the `Debug` rendering of a plain path is the
path in double quotes. -/
def loadErrorMsg (path : String) : String :=
  "couldn't load reference: \"" ++ path ++ "\""

/-- Embedding of `BwaReference::open` (lib.rs lines 112-143).  The
native loader `bwa_sys::bwa_idx_load` is an external C routine,
passed in as `loader` (`none` models the null/failure handle).
`CString::new(path).unwrap()` panics when the path contains a NUL
byte — modelled by the outer `Option` (`none` = panic).  On a null
handle the function returns the typed `ReferenceError` carrying the
path; on success it walks the contig table once, materialising the
name and length sequences in table order. -/
def BwaReference.openRef (loader : String → Option bwaidx_t) (path : String) :
    Option (Except ReferenceError BwaReference) :=
  if path.toList.contains (Char.ofNat 0) then
    none
  else
    match loader path with
    | none => some (Except.error ⟨loadErrorMsg path⟩)
    | some idx =>
        some (Except.ok
          { bwt_data := idx
            contig_names := idx.contigs.map Prod.fst
            contig_lengths := idx.contigs.map Prod.snd })

/-! ## BAM header construction (lib.rs lines 145-171)

`Header` and `HeaderRecord` come from rust-htslib (an external
dependency); the embedding below models exactly the operations the
wrapper uses (`HeaderRecord::new`, `push_tag`, `Header::push_record`,
`Header::to_bytes`), with the serialisation format pinned by the
repository's own `header` test (lib.rs lines 397-404) and by the
spec's header-fidelity property. -/

/-- One header record: a record type (e.g. `"SQ"`) and an ordered
list of (tag, value) pairs. -/
structure HeaderRecord where
  rec_type : String
  tags : List (String × String)
  deriving Repr, DecidableEq

/-- `HeaderRecord::new(b"SQ")`. -/
def HeaderRecord.new (t : String) : HeaderRecord :=
  { rec_type := t, tags := [] }

/-- `HeaderRecord::push_tag(tag, value)`: appends one tag. -/
def HeaderRecord.push_tag (r : HeaderRecord) (tag value : String) : HeaderRecord :=
  { r with tags := r.tags ++ [(tag, value)] }

/-- A BAM header: an ordered list of header records. -/
structure Header where
  records : List HeaderRecord
  deriving Repr, DecidableEq

/-- `Header::new()`. -/
def Header.new : Header := { records := [] }

/-- `Header::push_record(rec)`: appends one record. -/
def Header.push_record (h : Header) (r : HeaderRecord) : Header :=
  { records := h.records ++ [r] }

/-- Text of one header record: `@TY\tTAG:VALUE\tTAG:VALUE...`. -/
def HeaderRecord.to_text (r : HeaderRecord) : String :=
  "@" ++ r.rec_type ++
    String.join (r.tags.map (fun tv => "\t" ++ tv.1 ++ ":" ++ tv.2))

/-- `Header::to_bytes()`: records joined by newlines. -/
def Header.to_bytes (h : Header) : String :=
  String.intercalate "\n" (h.records.map HeaderRecord.to_text)

/-- Embedding of `add_ref_to_bam_header` (lib.rs lines 166-171): push
an `SQ` record with `SN` = contig name and `LN` = decimal length. -/
def add_ref_to_bam_header (header : Header) (seq_name : String) (seq_len : Nat) :
    Header :=
  let header_rec := HeaderRecord.new "SQ"
  let header_rec := header_rec.push_tag "SN" seq_name
  let header_rec := header_rec.push_tag "LN" (toString seq_len)
  header.push_record header_rec

/-- Embedding of `BwaReference::populate_bam_header`
(lib.rs lines 151-155): folds `add_ref_to_bam_header` over the
zipped contig names and lengths, in order. -/
def BwaReference.populate_bam_header (r : BwaReference) (header : Header) : Header :=
  (r.contig_names.zip r.contig_lengths).foldl
    (fun h nl => add_ref_to_bam_header h nl.1 nl.2) header

/-- Embedding of `BwaReference::create_bam_header`
(lib.rs lines 145-149). -/
def BwaReference.create_bam_header (r : BwaReference) : Header :=
  r.populate_bam_header Header.new

/-! ## BwaAligner::align_read_pair (lib.rs lines 251-336)

The native paired-end aligner (`bwa_sys::mem_process_seq_pe`) and the
htslib record decoder (`rust_htslib::bam::record::Record::from_sam`)
are external routines; both are explicit function parameters of the
embedding.  The decoder is `decode : Buf → Except E R` — `R` stands
for the htslib `Record` type and `E` for its parse error.  Rust
panics (`unwrap`) are modelled by `Option` (`none` = panic), and the
FFI side effects of one `align_read_pair` execution are recorded in
an event trace. -/

/-- One observable FFI side effect of `align_read_pair`:
`nativeCall` = the `mem_process_seq_pe` invocation,
`readSam i` = reading native output buffer `i` (the
`CStr::from_ptr(reads[i].sam)` access, lib.rs lines 308-309),
`decodeLine l` = decoding one SAM line via the header dictionary,
`freeSam i` = `libc::free(reads[i].sam)` (lib.rs lines 314-317). -/
inductive Event where
  | nativeCall : Event
  | readSam : Nat → Event
  | decodeLine : Buf → Event
  | freeSam : Nat → Event
  deriving Repr, DecidableEq

/-- Embedding of `sam.split(|x| *x == b'\n')` (lib.rs line 325):
Rust slice `split` semantics — the segments between separator bytes,
including empty segments (an empty input yields one empty segment). -/
def splitOnNl : Buf → List Buf
  | [] => [[]]
  | b :: rest =>
      if b = 10 then
        [] :: splitOnNl rest
      else
        match splitOnNl rest with
        | [] => [[b]]
        | s :: ss => (b :: s) :: ss

/-- The loop body of `parse_sam_to_records` (lib.rs lines 325-333),
run over the list of newline-separated segments with an event trace:
empty segments are skipped; each non-empty segment is decoded
(`Record::from_sam(..).unwrap()` — a decode error panics, modelled
by `none`) and the record is pushed in order. -/
def parseLoop {E R : Type} (decode : Buf → Except E R) :
    List Buf → List Event × Option (List R)
  | [] => ([], some [])
  | slc :: rest =>
      if 0 < slc.length then
        match decode slc with
        | Except.ok record =>
            (Event.decodeLine slc :: (parseLoop decode rest).1,
             (parseLoop decode rest).2.map (record :: ·))
        | Except.error _ => ([Event.decodeLine slc], none)
      else parseLoop decode rest

/-- Embedding of `BwaAligner::parse_sam_to_records`
(lib.rs lines 322-336), with its event trace. -/
def parse_sam_to_recordsT {E R : Type} (decode : Buf → Except E R) (sam : Buf) :
    List Event × Option (List R) :=
  parseLoop decode (splitOnNl sam)

/-- The value computed by `BwaAligner::parse_sam_to_records`
(lib.rs lines 322-336): `some records` normally, `none` when the
`unwrap` of some line's decode panics. -/
def parse_sam_to_records {E R : Type} (decode : Buf → Except E R) (sam : Buf) :
    Option (List R) :=
  (parse_sam_to_recordsT decode sam).2

/-- Embedding of `BwaAligner::align_read_pair` (lib.rs lines 252-320)
with its event trace.
`native` is `mem_process_seq_pe`: it receives the read-pair data and
produces the two native-allocated SAM text buffers (one per read).
Control flow mirrors the source exactly:
1. `CString::new(name).unwrap()` (line 260) panics when the name
   contains a NUL byte — before anything else happens;
2. the native aligner runs (lines 293-305);
3. both output buffers are read (lines 308-309) and each is parsed
   in turn (lines 311-312) — a decode panic aborts the call there;
4. only after both parses complete are the two buffers freed
   (lines 314-317) and the pair of record vectors returned. -/
def align_read_pairT {E R : Type} (decode : Buf → Except E R)
    (native : Buf → Buf → Buf → Buf → Buf → Buf × Buf)
    (name r1 q1 r2 q2 : Buf) :
    List Event × Option (List R × List R) :=
  if name.contains 0 then
    ([], none)
  else
    let sams := native name r1 q1 r2 q2
    let pre := [Event.nativeCall, Event.readSam 0, Event.readSam 1]
    let p1 := parse_sam_to_recordsT decode sams.1
    match p1.2 with
    | none => (pre ++ p1.1, none)
    | some recs1 =>
        let p2 := parse_sam_to_recordsT decode sams.2
        match p2.2 with
        | none => (pre ++ p1.1 ++ p2.1, none)
        | some recs2 =>
            (pre ++ p1.1 ++ p2.1 ++ [Event.freeSam 0, Event.freeSam 1],
             some (recs1, recs2))

/-- The value returned by `BwaAligner::align_read_pair`: the pair of
record vectors, or `none` when the call panics. -/
def align_read_pair {E R : Type} (decode : Buf → Except E R)
    (native : Buf → Buf → Buf → Buf → Buf → Buf × Buf)
    (name r1 q1 r2 q2 : Buf) : Option (List R × List R) :=
  (align_read_pairT decode native name r1 q1 r2 q2).2

/-- Spec-side definition (for the refinement statements): the
non-empty newline-separated lines of a buffer, in buffer order. -/
def nonEmptyLines (sam : Buf) : List Buf :=
  (splitOnNl sam).filter (fun l => 0 < l.length)

/-! ## Concrete instantiations used to exercise the theorems

`R` is instantiated with `Nat` (a record is represented by the length
of the SAM line it was decoded from) and `E` with `Unit`. -/

/-- A decoder that succeeds on every line, returning its length. -/
def wDecode : Buf → Except Unit Nat :=
  fun l => Except.ok l.length

/-- A native aligner producing output buffer `"a\nbc"` for read 1 and
`"\nd"` for read 2 (bytes, with `10` = newline). -/
def wNative : Buf → Buf → Buf → Buf → Buf → Buf × Buf :=
  fun _ _ _ _ _ => ([97, 10, 98, 99], [10, 100])

/-- A decoder that fails exactly on lines of length one. -/
def badDecode : Buf → Except Unit Nat :=
  fun l => if l.length = 1 then Except.error () else Except.ok l.length

/-- A native aligner whose read-1 output buffer `"ab\nc"` contains a
line (`"c"`) on which `badDecode` fails. -/
def badNative : Buf → Buf → Buf → Buf → Buf → Buf × Buf :=
  fun _ _ _ _ _ => ([97, 98, 10, 99], [100, 101])

/-- A loader that fails (returns the null handle) on every path. -/
def nullLoader : String → Option bwaidx_t :=
  fun _ => none

/-- A loader that succeeds on every path with a one-contig index. -/
def okLoader : String → Option bwaidx_t :=
  fun _ => some { contigs := [("PhiX", 5386)] }

/-! ## Helper lemmas -/

/-- When every non-empty segment decodes successfully (to `f` of the
segment), the parse loop emits one decode event and one record per
non-empty segment, in segment order. -/
theorem parseLoop_ok {E R : Type} (decode : Buf → Except E R) (f : Buf → R)
    (lines : List Buf)
    (h : ∀ l ∈ lines, 0 < l.length → decode l = Except.ok (f l)) :
    parseLoop decode lines =
      ((lines.filter (fun l => 0 < l.length)).map Event.decodeLine,
       some ((lines.filter (fun l => 0 < l.length)).map f)) := by
  induction lines with
  | nil => simp [parseLoop]
  | cons slc rest ih =>
    have ihr := ih (fun l hm hl => h l (List.mem_cons_of_mem _ hm) hl)
    by_cases hl : 0 < slc.length
    · have hd := h slc (List.mem_cons_self _ _) hl
      simp [parseLoop, hl, hd, ihr]
    · simp [parseLoop, hl, ihr]

/-- If some non-empty segment fails to decode, the parse loop panics
(returns `none`). -/
theorem parseLoop_error {E R : Type} (decode : Buf → Except E R)
    (lines : List Buf) (l : Buf) (e : E)
    (hm : l ∈ lines) (hl : 0 < l.length) (hd : decode l = Except.error e) :
    (parseLoop decode lines).2 = none := by
  induction lines with
  | nil => cases hm
  | cons slc rest ih =>
    rcases List.mem_cons.mp hm with rfl | hm2
    · simp [parseLoop, hl, hd]
    · by_cases hsl : 0 < slc.length
      · cases hds : decode slc with
        | ok r => simp [parseLoop, hsl, hds, ih hm2]
        | error e2 => simp [parseLoop, hsl, hds]
      · simp [parseLoop, hsl, ih hm2]

/-- Every event the parse loop emits is a decode event. -/
theorem parseLoop_events {E R : Type} (decode : Buf → Except E R)
    (lines : List Buf) :
    ∀ ev ∈ (parseLoop decode lines).1, ∃ l, ev = Event.decodeLine l := by
  induction lines with
  | nil => simp [parseLoop]
  | cons slc rest ih =>
    intro ev hev
    by_cases hsl : 0 < slc.length
    · cases hds : decode slc with
      | ok r =>
          simp [parseLoop, hsl, hds] at hev
          rcases hev with rfl | hev
          · exact ⟨slc, rfl⟩
          · exact ih ev hev
      | error e =>
          simp [parseLoop, hsl, hds] at hev
          exact ⟨slc, hev⟩
    · simp only [parseLoop, if_neg hsl] at hev
      exact ih ev hev

/-- The parse loop ignores empty segments entirely: running it on the
filtered segment list produces the same trace and result. -/
theorem parseLoop_filter {E R : Type} (decode : Buf → Except E R)
    (lines : List Buf) :
    parseLoop decode lines =
      parseLoop decode (lines.filter (fun l => 0 < l.length)) := by
  induction lines with
  | nil => simp
  | cons slc rest ih =>
    by_cases hsl : 0 < slc.length
    · cases hds : decode slc with
      | ok r => simp [parseLoop, hsl, hds, ih]
      | error e => simp [parseLoop, hsl, hds]
    · simp [parseLoop, hsl, ih]

/-- A buffer of newline bytes only splits into empty segments. -/
theorem nonEmptyLines_all_nl (sam : Buf) (h : ∀ b ∈ sam, b = 10) :
    nonEmptyLines sam = [] := by
  induction sam with
  | nil => simp [nonEmptyLines, splitOnNl]
  | cons b rest ih =>
    have hb : b = 10 := h b (List.mem_cons_self _ _)
    have ihr := ih (fun x hx => h x (List.mem_cons_of_mem _ hx))
    simp [nonEmptyLines, splitOnNl, hb] at *
    exact ihr

/-- `populate_bam_header` appends one `SQ` record per (name, length)
pair, in order. -/
theorem populate_records (r : BwaReference) (h : Header) :
    (r.populate_bam_header h).records =
      h.records ++ (r.contig_names.zip r.contig_lengths).map
        (fun nl => { rec_type := "SQ"
                     tags := [("SN", nl.1), ("LN", toString nl.2)] }) := by
  unfold BwaReference.populate_bam_header
  generalize r.contig_names.zip r.contig_lengths = ps
  induction ps generalizing h with
  | nil => simp
  | cons p rest ih =>
    rw [List.foldl_cons, ih]
    simp [add_ref_to_bam_header, HeaderRecord.new, HeaderRecord.push_tag,
      Header.push_record]

/-- Successful parses of both output buffers pin the traced
`align_read_pair` exactly. -/
theorem align_read_pairT_ok {E R : Type} (decode : Buf → Except E R)
    (native : Buf → Buf → Buf → Buf → Buf → Buf × Buf)
    (name r1 q1 r2 q2 : Buf) (ev1 ev2 : List Event) (recs1 recs2 : List R)
    (hname : name.contains 0 = false)
    (hp1 : parse_sam_to_recordsT decode (native name r1 q1 r2 q2).1 =
      (ev1, some recs1))
    (hp2 : parse_sam_to_recordsT decode (native name r1 q1 r2 q2).2 =
      (ev2, some recs2)) :
    align_read_pairT decode native name r1 q1 r2 q2 =
      ([Event.nativeCall, Event.readSam 0, Event.readSam 1] ++ ev1 ++ ev2 ++
        [Event.freeSam 0, Event.freeSam 1],
       some (recs1, recs2)) := by
  unfold align_read_pairT
  rw [if_neg (by simpa using hname)]
  simp only [hp1, hp2]

/-- If parsing read 1's output buffer panics, the whole call panics. -/
theorem align_read_pairT_snd_none1 {E R : Type} (decode : Buf → Except E R)
    (native : Buf → Buf → Buf → Buf → Buf → Buf × Buf)
    (name r1 q1 r2 q2 : Buf)
    (hname : name.contains 0 = false)
    (hp1 : (parse_sam_to_recordsT decode
      (native name r1 q1 r2 q2).1 : List Event × Option (List R)).2 = none) :
    (align_read_pairT decode native name r1 q1 r2 q2).2 = none := by
  unfold align_read_pairT
  rw [if_neg (by simpa using hname)]
  simp only [hp1]

/-- If parsing read 2's output buffer panics, the whole call panics. -/
theorem align_read_pairT_snd_none2 {E R : Type} (decode : Buf → Except E R)
    (native : Buf → Buf → Buf → Buf → Buf → Buf × Buf)
    (name r1 q1 r2 q2 : Buf)
    (hname : name.contains 0 = false)
    (hp2 : (parse_sam_to_recordsT decode
      (native name r1 q1 r2 q2).2 : List Event × Option (List R)).2 = none) :
    (align_read_pairT decode native name r1 q1 r2 q2).2 = none := by
  unfold align_read_pairT
  rw [if_neg (by simpa using hname)]
  cases hp1 : (parse_sam_to_recordsT decode
      (native name r1 q1 r2 q2).1 : List Event × Option (List R)).2 with
  | none => simp only [hp1]
  | some recs1 => simp only [hp1, hp2]

/-! ## Claims -/

/-- C1: `align_read_pair` returns exactly two sequences of records,
the first from read 1's native output buffer and the second from
read 2's (mirroring input read order); within each sequence the
records are obtained from exactly the non-empty newline-separated
lines of that read's buffer, in buffer order — no reordering,
dropping or duplication (each sequence is the elementwise decode of
`nonEmptyLines` of the corresponding buffer). -/
theorem C1_align_read_pair_line_order {E R : Type} (decode : Buf → Except E R)
    (native : Buf → Buf → Buf → Buf → Buf → Buf × Buf)
    (name r1 q1 r2 q2 sam1 sam2 : Buf) (f1 f2 : Buf → R)
    (hname : name.contains 0 = false)
    (hnat : native name r1 q1 r2 q2 = (sam1, sam2))
    (h1 : ∀ l ∈ nonEmptyLines sam1, decode l = Except.ok (f1 l))
    (h2 : ∀ l ∈ nonEmptyLines sam2, decode l = Except.ok (f2 l)) :
    align_read_pair decode native name r1 q1 r2 q2 =
      some ((nonEmptyLines sam1).map f1, (nonEmptyLines sam2).map f2) := by
  have hp1 : parse_sam_to_recordsT decode sam1 =
      ((nonEmptyLines sam1).map Event.decodeLine,
       some ((nonEmptyLines sam1).map f1)) :=
    parseLoop_ok decode f1 _
      (fun l hm hl => h1 l (List.mem_filter.mpr ⟨hm, by simpa using hl⟩))
  have hp2 : parse_sam_to_recordsT decode sam2 =
      ((nonEmptyLines sam2).map Event.decodeLine,
       some ((nonEmptyLines sam2).map f2)) :=
    parseLoop_ok decode f2 _
      (fun l hm hl => h2 l (List.mem_filter.mpr ⟨hm, by simpa using hl⟩))
  unfold align_read_pair
  rw [align_read_pairT_ok decode native name r1 q1 r2 q2 _ _ _ _ hname
    (by rw [hnat]; exact hp1) (by rw [hnat]; exact hp2)]

/-- Witness for C1 at a concrete input: read 1's buffer `"a\nbc"`
has non-empty lines `"a"`, `"bc"` and read 2's buffer `"\nd"` has
non-empty line `"d"`; the decoded sequences (line lengths) come back
as `([1, 2], [1])`, in that order. -/
theorem C1_witness :
    (([65] : Buf).contains 0 = false) ∧
    wNative [65] [66] [67] [68] [69] = ([97, 10, 98, 99], [10, 100]) ∧
    (∀ l ∈ nonEmptyLines [97, 10, 98, 99], wDecode l = Except.ok l.length) ∧
    (∀ l ∈ nonEmptyLines [10, 100], wDecode l = Except.ok l.length) ∧
    align_read_pair wDecode wNative [65] [66] [67] [68] [69] =
      some ([1, 2], [1]) := by
  refine ⟨rfl, rfl, fun l _ => rfl, fun l _ => rfl, ?_⟩
  have h := C1_align_read_pair_line_order wDecode wNative
    [65] [66] [67] [68] [69] [97, 10, 98, 99] [10, 100]
    List.length List.length rfl rfl (fun l _ => rfl) (fun l _ => rfl)
  rw [h]; rfl

/-- C9: the SAM-parsing step skips zero-length segments without
producing a record — it behaves exactly as the loop run on the
non-empty segments only — and a buffer that is empty or consists
solely of newline bytes yields `some []` (the empty record sequence,
a non-erroring outcome). -/
theorem C9_empty_segments_skipped {E R : Type} (decode : Buf → Except E R)
    (sam : Buf) :
    parse_sam_to_records decode sam =
      (parseLoop decode (nonEmptyLines sam)).2 ∧
    ((∀ b ∈ sam, b = 10) → parse_sam_to_records decode sam = some []) := by
  constructor
  · unfold parse_sam_to_records parse_sam_to_recordsT nonEmptyLines
    rw [← parseLoop_filter]
  · intro h
    unfold parse_sam_to_records parse_sam_to_recordsT
    rw [parseLoop_filter]
    have he : nonEmptyLines sam = [] := nonEmptyLines_all_nl sam h
    unfold nonEmptyLines at he
    rw [he]
    rfl

/-- Witness for C9 at a concrete input: the buffer `"\n\n"` (two
newline bytes) parses to zero records without error. -/
theorem C9_witness :
    (∀ b ∈ ([10, 10] : Buf), b = 10) ∧
    parse_sam_to_records wDecode [10, 10] = some [] :=
  ⟨by decide, (C9_empty_segments_skipped wDecode [10, 10]).2 (by decide)⟩

/-- C4: the generated header holds exactly one `SQ` record per
contig, in contig (load) order, carrying `SN` = name and `LN` =
length; for contigs `["PhiX" (5386), "chr" (4639675)]` the header
text is exactly `@SQ\tSN:PhiX\tLN:5386\n@SQ\tSN:chr\tLN:4639675`. -/
theorem C4_header_one_sq_per_contig :
    (∀ r : BwaReference,
      r.create_bam_header.records =
        (r.contig_names.zip r.contig_lengths).map
          (fun nl => { rec_type := "SQ"
                       tags := [("SN", nl.1), ("LN", toString nl.2)] })) ∧
    (BwaReference.create_bam_header
        { bwt_data := { contigs := [("PhiX", 5386), ("chr", 4639675)] }
          contig_names := ["PhiX", "chr"]
          contig_lengths := [5386, 4639675] }).to_bytes =
      "@SQ\tSN:PhiX\tLN:5386\n@SQ\tSN:chr\tLN:4639675" := by
  constructor
  · intro r
    unfold BwaReference.create_bam_header
    rw [populate_records]
    simp [Header.new]
  · rfl

/-- C5: `set_scores` assigns match score `a`, mismatch penalty `b`,
both gap-open fields (`o_del`, `o_ins`) from `gap_open`, both
gap-extend fields (`e_del`, `e_ins`) from `gap_extend`, and
recomputes the scoring matrix from the new match/mismatch values via
the native scoring-matrix builder; it is total on all integer
inputs (no range validation rejects any input). -/
theorem C5_set_scores_fields (fill_scmat : Int → Int → List Int)
    (s : BwaSettings) (matchp mismatch gap_open gap_extend : Int) :
    (s.set_scores fill_scmat matchp mismatch gap_open gap_extend).bwa_settings.a
        = matchp ∧
    (s.set_scores fill_scmat matchp mismatch gap_open gap_extend).bwa_settings.b
        = mismatch ∧
    (s.set_scores fill_scmat matchp mismatch gap_open gap_extend).bwa_settings.o_del
        = gap_open ∧
    (s.set_scores fill_scmat matchp mismatch gap_open gap_extend).bwa_settings.o_ins
        = gap_open ∧
    (s.set_scores fill_scmat matchp mismatch gap_open gap_extend).bwa_settings.e_del
        = gap_extend ∧
    (s.set_scores fill_scmat matchp mismatch gap_open gap_extend).bwa_settings.e_ins
        = gap_extend ∧
    (s.set_scores fill_scmat matchp mismatch gap_open gap_extend).bwa_settings.mat
        = fill_scmat matchp mismatch :=
  ⟨rfl, rfl, rfl, rfl, rfl, rfl, rfl⟩

/-- C6: `simple(mean, std_dev, low, high)` builds the four-slot
table whose slot 1 (the forward-reverse orientation class) is the
only non-failed slot and holds the supplied values, while slots 0, 2
and 3 equal the fixed sentinel {failed=1, low=0, high=0, mean=0,
std_dev=100}; and `default()` equals `simple(200, 100, 35, 600)`. -/
theorem C6_pe_stats_simple (avg std : ℚ) (low high : Int) :
    (PairedEndStats.simple avg std low high).inner =
      [pe_stat_null,
       { failed := 0, low := low, high := high, avg := avg, std := std },
       pe_stat_null, pe_stat_null] ∧
    pe_stat_null = { failed := 1, low := 0, high := 0, avg := 0, std := 100 } ∧
    ((PairedEndStats.simple avg std low high).inner.countP
        (fun p => p.failed == 0)) = 1 ∧
    PairedEndStats.default = PairedEndStats.simple 200 100 35 600 :=
  ⟨rfl, rfl, rfl, rfl⟩

/-- C2 counterexample: in the source, each line's decode result is
`unwrap`ped (lib.rs line 329), so a decode failure is a panic
(modelled by `none`), not a typed result: at this concrete input a
non-conforming line is present in read 1's output buffer and the
`align_read_pair` call produces no result value at all — the claim
that the failure is "surfaced to the caller as a typed result of the
align_read_pair call" is false. -/
theorem C2_counterexample :
    (∃ l ∈ nonEmptyLines [97, 98, 10, 99], badDecode l = Except.error ()) ∧
    align_read_pair badDecode badNative [65] [66] [67] [68] [69] = none :=
  ⟨⟨[99], by decide, rfl⟩, by decide⟩

/-- C2 (amended): a decode failure on any non-empty line of either
read's output buffer makes the whole `align_read_pair` call panic
(`unwrap`): the call aborts with no partial result — no decode
failure is silently swallowed, but it escapes as a panic rather
than as a typed result. -/
theorem C2_decode_failure_panics {E R : Type} (decode : Buf → Except E R)
    (native : Buf → Buf → Buf → Buf → Buf → Buf × Buf)
    (name r1 q1 r2 q2 sam1 sam2 : Buf)
    (hname : name.contains 0 = false)
    (hnat : native name r1 q1 r2 q2 = (sam1, sam2))
    (hbad : (∃ l ∈ nonEmptyLines sam1, ∃ e, decode l = Except.error e) ∨
            (∃ l ∈ nonEmptyLines sam2, ∃ e, decode l = Except.error e)) :
    align_read_pair decode native name r1 q1 r2 q2 = none := by
  unfold align_read_pair
  rcases hbad with ⟨l, hm, e, hd⟩ | ⟨l, hm, e, hd⟩
  · refine align_read_pairT_snd_none1 decode native name r1 q1 r2 q2 hname ?_
    rw [hnat]
    exact parseLoop_error decode _ l e (List.mem_of_mem_filter hm)
      (by simpa using List.of_mem_filter hm) hd
  · refine align_read_pairT_snd_none2 decode native name r1 q1 r2 q2 hname ?_
    rw [hnat]
    exact parseLoop_error decode _ l e (List.mem_of_mem_filter hm)
      (by simpa using List.of_mem_filter hm) hd

/-- Witness for the amended C2 at a concrete input: read 1's buffer
`"ab\nc"` contains the line `"c"` on which the decoder fails, and
the call panics (produces no result). -/
theorem C2_witness :
    (([65] : Buf).contains 0 = false) ∧
    badNative [65] [66] [67] [68] [69] = ([97, 98, 10, 99], [100, 101]) ∧
    ((∃ l ∈ nonEmptyLines [97, 98, 10, 99], ∃ e, badDecode l = Except.error e) ∨
     (∃ l ∈ nonEmptyLines [100, 101], ∃ e, badDecode l = Except.error e)) ∧
    align_read_pair badDecode badNative [65] [66] [67] [68] [69] = none :=
  ⟨rfl, rfl, Or.inl ⟨[99], by decide, (), rfl⟩,
   C2_decode_failure_panics badDecode badNative [65] [66] [67] [68] [69]
     [97, 98, 10, 99] [100, 101] rfl rfl (Or.inl ⟨[99], by decide, (), rfl⟩)⟩

/-- C3: when the path is representable as a C string (no NUL byte),
`BwaReference::open` never panics; when the native loader returns
the null handle it returns a `ReferenceError` whose message contains
the path, and when the loader succeeds it returns `Ok` with the
contig names and lengths materialised in table order. -/
theorem C3_open_load_failure (loader : String → Option bwaidx_t) (path : String)
    (hp : path.toList.contains (Char.ofNat 0) = false) :
    (BwaReference.openRef loader path).isSome ∧
    (loader path = none →
      ∃ e : ReferenceError,
        BwaReference.openRef loader path = some (Except.error e) ∧
        ∃ pre post, e.msg = pre ++ path ++ post) ∧
    (∀ idx, loader path = some idx →
      BwaReference.openRef loader path =
        some (Except.ok { bwt_data := idx
                          contig_names := idx.contigs.map Prod.fst
                          contig_lengths := idx.contigs.map Prod.snd })) := by
  have hif : ¬path.toList.contains (Char.ofNat 0) = true := by simpa using hp
  cases hl : loader path with
  | none =>
    have hopen : BwaReference.openRef loader path =
        some (Except.error ⟨loadErrorMsg path⟩) := by
      unfold BwaReference.openRef
      rw [if_neg hif, hl]
    refine ⟨by rw [hopen]; rfl, fun _ => ?_, fun idx hidx => ?_⟩
    · exact ⟨⟨loadErrorMsg path⟩, hopen,
        "couldn't load reference: \"", "\"", rfl⟩
    · exact Option.noConfusion hidx
  | some idx =>
    have hopen : BwaReference.openRef loader path =
        some (Except.ok { bwt_data := idx
                          contig_names := idx.contigs.map Prod.fst
                          contig_lengths := idx.contigs.map Prod.snd }) := by
      unfold BwaReference.openRef
      rw [if_neg hif, hl]
    refine ⟨by rw [hopen]; rfl, fun h => ?_, fun idx2 hidx2 => ?_⟩
    · exact Option.noConfusion h
    · cases hidx2
      exact hopen

/-- Witness for C3 at concrete inputs: a loader failing on
`"missing.fa"` produces the typed error with the path in its
message; a loader succeeding on `"ref.fa"` with one contig produces
`Ok` with that contig's name and length. -/
theorem C3_witness :
    ("missing.fa".toList.contains (Char.ofNat 0) = false) ∧
    (BwaReference.openRef nullLoader "missing.fa").isSome ∧
    (∃ e : ReferenceError,
      BwaReference.openRef nullLoader "missing.fa" = some (Except.error e) ∧
      ∃ pre post, e.msg = pre ++ "missing.fa" ++ post) ∧
    BwaReference.openRef okLoader "ref.fa" =
      some (Except.ok { bwt_data := { contigs := [("PhiX", 5386)] }
                        contig_names := ["PhiX"]
                        contig_lengths := [5386] }) := by
  have h1 := C3_open_load_failure nullLoader "missing.fa" (by decide)
  have h2 := C3_open_load_failure okLoader "ref.fa" (by decide)
  exact ⟨by decide, h1.1, h1.2.1 rfl, h2.2.2 { contigs := [("PhiX", 5386)] } rfl⟩

/-- C7 counterexample: on a path where a line's decode fails, the
`unwrap` panic (lib.rs line 329) aborts `align_read_pair` before the
`libc::free` calls (lib.rs lines 314-317) are reached: at this
concrete input the call panics and neither output buffer is ever
released — the claim that the buffers are released "on every exit
path, including paths on which decoding of some individual line
fails" is false. -/
theorem C7_counterexample :
    (align_read_pairT badDecode badNative [65] [66] [67] [68] [69]).2 = none ∧
    Event.freeSam 0 ∉
      (align_read_pairT badDecode badNative [65] [66] [67] [68] [69]).1 ∧
    Event.freeSam 1 ∉
      (align_read_pairT badDecode badNative [65] [66] [67] [68] [69]).1 := by
  decide

/-- C7 (amended): on every execution of `align_read_pair` on which
all lines decode (the call returns), each of the two output buffers
is released exactly once, after all decoding completes — the trace
ends with the two frees, and no free occurs earlier (so no buffer is
freed twice or accessed after release); on a decode-failure
execution the call panics and the buffers are not released. -/
theorem C7_buffers_freed_once_on_success {E R : Type}
    (decode : Buf → Except E R)
    (native : Buf → Buf → Buf → Buf → Buf → Buf × Buf)
    (name r1 q1 r2 q2 : Buf) (out : List R × List R)
    (h : (align_read_pairT decode native name r1 q1 r2 q2).2 = some out) :
    ∃ pre, (align_read_pairT decode native name r1 q1 r2 q2).1 =
        pre ++ [Event.freeSam 0, Event.freeSam 1] ∧
      ∀ i, Event.freeSam i ∉ pre := by
  by_cases hname : name.contains 0 = true
  · exfalso
    have hn : (align_read_pairT decode native name r1 q1 r2 q2).2 = none := by
      unfold align_read_pairT
      rw [if_pos hname]
    rw [hn] at h
    exact Option.noConfusion h
  · have hname2 : name.contains 0 = false := by simpa using hname
    cases hps1 : parse_sam_to_recordsT decode (native name r1 q1 r2 q2).1 with
    | mk ev1 res1 =>
      cases res1 with
      | none =>
          exfalso
          have hn := align_read_pairT_snd_none1 decode native name r1 q1 r2 q2
            hname2 (by rw [hps1])
          rw [hn] at h
          exact Option.noConfusion h
      | some recs1 =>
        cases hps2 : parse_sam_to_recordsT decode (native name r1 q1 r2 q2).2 with
        | mk ev2 res2 =>
          cases res2 with
          | none =>
              exfalso
              have hn := align_read_pairT_snd_none2 decode native name r1 q1 r2 q2
                hname2 (by rw [hps2])
              rw [hn] at h
              exact Option.noConfusion h
          | some recs2 =>
            have he1 : ∀ ev ∈ ev1, ∃ l, ev = Event.decodeLine l := by
              have hh : ∀ ev ∈ (parse_sam_to_recordsT decode
                  (native name r1 q1 r2 q2).1).1, ∃ l, ev = Event.decodeLine l :=
                parseLoop_events decode _
              rw [hps1] at hh
              simpa using hh
            have he2 : ∀ ev ∈ ev2, ∃ l, ev = Event.decodeLine l := by
              have hh : ∀ ev ∈ (parse_sam_to_recordsT decode
                  (native name r1 q1 r2 q2).2).1, ∃ l, ev = Event.decodeLine l :=
                parseLoop_events decode _
              rw [hps2] at hh
              simpa using hh
            rw [align_read_pairT_ok decode native name r1 q1 r2 q2 ev1 ev2
              recs1 recs2 hname2 hps1 hps2]
            refine ⟨[Event.nativeCall, Event.readSam 0, Event.readSam 1] ++
              ev1 ++ ev2, by simp, ?_⟩
            intro i hmem
            rcases List.mem_append.mp hmem with hmem | hmem
            · rcases List.mem_append.mp hmem with hmem | hmem
              · simp at hmem
              · obtain ⟨l, hl⟩ := he1 _ hmem
                exact Event.noConfusion hl
            · obtain ⟨l, hl⟩ := he2 _ hmem
              exact Event.noConfusion hl

/-- Witness for the amended C7 at a concrete input on which every
line decodes: the call returns and its trace ends with exactly the
two frees. -/
theorem C7_witness :
    (align_read_pairT wDecode wNative [65] [66] [67] [68] [69]).2 =
      some ([1, 2], [1]) ∧
    ∃ pre, (align_read_pairT wDecode wNative [65] [66] [67] [68] [69]).1 =
        pre ++ [Event.freeSam 0, Event.freeSam 1] ∧
      ∀ i, Event.freeSam i ∉ pre :=
  ⟨by decide,
   C7_buffers_freed_once_on_success wDecode wNative [65] [66] [67] [68] [69]
     ([1, 2], [1]) (by decide)⟩

/-- C10: when the read name contains a NUL byte, `align_read_pair`
panics during the `CString::new(name).unwrap()` marshalling
(lib.rs line 260) before the native aligner is invoked — the trace
is empty (in particular it has no native-call event) and no result
is produced; for every NUL-free name, name conversion succeeds and
the native aligner is invoked. -/
theorem C10_nul_name_panics {E R : Type} (decode : Buf → Except E R)
    (native : Buf → Buf → Buf → Buf → Buf → Buf × Buf)
    (name r1 q1 r2 q2 : Buf) :
    (name.contains 0 = true →
      align_read_pairT decode native name r1 q1 r2 q2 = ([], none)) ∧
    (name.contains 0 = false →
      Event.nativeCall ∈ (align_read_pairT decode native name r1 q1 r2 q2).1) := by
  constructor
  · intro h
    unfold align_read_pairT
    rw [if_pos h]
  · intro h
    unfold align_read_pairT
    rw [if_neg (by simpa using h)]
    cases hp1 : (parse_sam_to_recordsT decode
        (native name r1 q1 r2 q2).1 : List Event × Option (List R)).2 with
    | none => simp [hp1]
    | some recs1 =>
      cases hp2 : (parse_sam_to_recordsT decode
          (native name r1 q1 r2 q2).2 : List Event × Option (List R)).2 with
      | none => simp [hp1, hp2]
      | some recs2 => simp [hp1, hp2]

/-- Witness for C10 at concrete inputs: a name containing a NUL byte
panics with an empty trace (no native call); a NUL-free name reaches
the native call. -/
theorem C10_witness :
    (([0, 65] : Buf).contains 0 = true) ∧
    align_read_pairT wDecode wNative [0, 65] [66] [67] [68] [69] = ([], none) ∧
    (([65] : Buf).contains 0 = false) ∧
    Event.nativeCall ∈ (align_read_pairT wDecode wNative [65] [66] [67] [68] [69]).1 :=
  ⟨rfl,
   (C10_nul_name_panics wDecode wNative [0, 65] [66] [67] [68] [69]).1 rfl,
   rfl,
   (C10_nul_name_panics wDecode wNative [65] [66] [67] [68] [69]).2 rfl⟩

end RustBwa
